import Mathlib

/-!
Verification of the fetch/resolve pipeline of `BXT_lookup_direct_to_filing.py`.

The Python source is shallowly embedded: the outcome of each underlying
`requests.get` call is supplied by an oracle (`Nat → FetchOutcome`, indexed by
attempt number), listing-page fetches by a `PageFetch` value, and the manifest
fetch by a `ManifestFetch` value.  Wall-clock sleeps are recorded as events in
a trace rather than performed.  The rate-governor critical section (the
`_rate_limit_lock` block) concerns real time and thread interleaving and is
not modelled; the traces below record only the 429-backoff sleeps of
`sec_get`.
-/

namespace SECFilings

/-- Outcome of one underlying `requests.get(url, ...)` call: either a response
with an HTTP status code, or a raised network-level exception
(`requests.RequestException`) carrying an underlying cause. -/
inductive FetchOutcome where
  | resp (status : Nat)
  | netError (cause : Nat)
deriving DecidableEq, Repr

/-- Observable event of a `sec_get` run: issuing the attempt-`n` request, or a
backoff sleep of `secs` seconds (`time.sleep((attempt + 1) * backoff_factor)`). -/
inductive SecGetEvent where
  | attempt (n : Nat)
  | sleep (secs : Nat)
deriving DecidableEq, Repr

/-- Observable result of `sec_get`: a normally returned response with its
status code, a propagated `requests` exception with its cause, or the
(unreachable for `max_retries = 3`) fall-through where the local variable
`response` was never assigned. -/
inductive SecGetObs where
  | ret (status : Nat)
  | raised (cause : Nat)
  | undefinedVar
deriving DecidableEq, Repr

/-- `max_retries = 3` in `sec_get`. -/
def max_retries : Nat := 3

/-- `backoff_factor = 10  # seconds` in `sec_get`. -/
def backoff_factor : Nat := 10

/-- The `for attempt in range(max_retries)` loop of `sec_get`: on each
iteration the oracle yields the `requests.get` outcome for that attempt; a 429
status triggers `time.sleep((attempt + 1) * backoff_factor)` and the loop
continues, any other status returns the response, and a raised exception
propagates.  After the loop the last assigned `response` is returned.  The
second argument carries the status of the last assigned `response` variable. -/
def secGetLoop (oracle : Nat → FetchOutcome) :
    List Nat → Option Nat → SecGetObs × List SecGetEvent
  | [], none => (.undefinedVar, [])
  | [], some s => (.ret s, [])
  | a :: rest, _ =>
    match oracle a with
    | .netError c => (.raised c, [.attempt a])
    | .resp s =>
      if s = 429 then
        let r := secGetLoop oracle rest (some s)
        (r.1, .attempt a :: .sleep ((a + 1) * backoff_factor) :: r.2)
      else
        (.ret s, [.attempt a])

/-- `sec_get(url, **kwargs)`: runs the retry loop over
`range(max_retries)` with no `response` assigned yet, producing the observable
result and the trace of attempts and backoff sleeps. -/
def sec_get (oracle : Nat → FetchOutcome) : SecGetObs × List SecGetEvent :=
  secGetLoop oracle (List.range max_retries) none

/-- Whether an event is a request attempt. -/
def isAttemptEv : SecGetEvent → Bool
  | .attempt _ => true
  | .sleep _ => false

/-- Number of request attempts recorded in a trace. -/
def numAttempts (t : List SecGetEvent) : Nat := t.countP isAttemptEv

/-- Total seconds of backoff sleep recorded in a trace. -/
def sleepTotal : List SecGetEvent → Nat
  | [] => 0
  | .attempt _ :: rest => sleepTotal rest
  | .sleep s :: rest => s + sleepTotal rest

/-! ### Document resolver: `get_native_filing_url` -/

/-- The whitespace characters stripped by Python `str.strip()` (ASCII range;
hrefs in these listing pages are ASCII). -/
def isPySpace (c : Char) : Bool :=
  c = ' ' || c = '\t' || c = '\n' || c = '\r' || c = '\x0b' || c = '\x0c'

/-- Python `str.strip()`: remove leading and trailing whitespace. -/
def pyStrip (s : String) : String :=
  String.mk (((s.data.dropWhile isPySpace).reverse.dropWhile isPySpace).reverse)

/-- Python `str.lower()` on the ASCII range (as `href.lower()` is used on
ASCII filenames). -/
def strLower (s : String) : String :=
  String.mk (s.data.map Char.toLower)

/-- `p.isPrefixOf l` on char lists, written out so it reduces in the kernel. -/
def listStartsWith : List Char → List Char → Bool
  | [], _ => true
  | _ :: _, [] => false
  | p :: ps, c :: cs => p = c && listStartsWith ps cs

/-- Python `s.endswith(t)`. -/
def endsWithStr (s t : String) : Bool :=
  listStartsWith t.data.reverse s.data.reverse

/-- Python `"/" in href` (membership of a single-character substring). -/
def containsSlash (s : String) : Bool := s.data.contains '/'

/-- The `base_url` constructed by `get_native_filing_url`:
`f"https://www.sec.gov/Archives/edgar/data/\x7bcik\x7d/\x7baccession_stripped\x7d/"`. -/
def base_url (cik accession_stripped : String) : String :=
  "https://www.sec.gov/Archives/edgar/data/" ++ cik ++ "/" ++ accession_stripped ++ "/"

/-- The `index_url` (listing-page URL): `base_url + "index.html"`. -/
def index_url (cik accession_stripped : String) : String :=
  base_url cik accession_stripped ++ "index.html"

/-- Outcome of the resolver's listing-page fetch, after
`sec_get(index_url, timeout=10)` and `response.raise_for_status()`:
a successful page whose `<a href=...>` values (in document order) are
`links`, a non-success status (so `raise_for_status` raised `HTTPError`), or
a network-level `requests` exception during the fetch.  Both error cases are
caught by the `except requests.RequestException` clause. -/
inductive PageFetch where
  | ok (links : List String)
  | httpError
  | netError
deriving DecidableEq, Repr

/-- One iteration of the candidate-collection loop of
`get_native_filing_url`: strip the href, accept it only when its lowercase
form ends in `.htm` or `.html` and the href has no `/`, then `continue` past
hrefs whose lowercase form ends in `.txt`, appending the remaining hrefs to
`candidate_files`. -/
def candidateStep (candidate_files : List String) (link : String) :
    List String :=
  let href := pyStrip link
  let lower_href := strLower href
  if (endsWithStr lower_href ".htm" || endsWithStr lower_href ".html")
      && !containsSlash href then
    if endsWithStr lower_href ".txt" then candidate_files
    else candidate_files ++ [href]
  else candidate_files

/-- The candidate-collection loop of `get_native_filing_url` over all page
links, in document order. -/
def collectCandidates (links : List String) : List String :=
  links.foldl candidateStep []

/-- `get_native_filing_url(cik, accession_stripped, accession_original)`:
on a fetch failure or non-success status, fall back to `index_url`;
otherwise collect candidate files from the page links, filter out those
case-insensitively equal to `"index.html"`, and return `base_url` plus the
last non-index candidate, else `base_url` plus the last candidate, else
`index_url`.  (`accession_original` is an unused parameter in the source and
is omitted here.) -/
def get_native_filing_url (cik accession_stripped : String)
    (fetch : PageFetch) : String :=
  match fetch with
  | .httpError => index_url cik accession_stripped
  | .netError => index_url cik accession_stripped
  | .ok links =>
    let candidate_files := collectCandidates links
    let non_index_candidates :=
      candidate_files.filter (fun f => strLower f != "index.html")
    match non_index_candidates.getLast? with
    | some f => base_url cik accession_stripped ++ f
    | none =>
      match candidate_files.getLast? with
      | some f => base_url cik accession_stripped ++ f
      | none => index_url cik accession_stripped

/-- Spec-side candidate rule (written from the spec's words, for comparison
with the loop in the source): the href case-insensitively ends in `.htm` or
`.html`, contains no `/`, and does not case-insensitively end in `.txt`. -/
def specCandidate (href : String) : Bool :=
  (endsWithStr (strLower href) ".htm" || endsWithStr (strLower href) ".html")
    && !containsSlash href
    && !(endsWithStr (strLower href) ".txt")

/-- Spec-side selection rule (written from the spec's words): among the
stripped hrefs that qualify, return the base listing URL plus the last one
not case-insensitively equal to `"index.html"`; else the base URL plus the
last index-named one; else the listing-page URL itself. -/
def specResolve (cik accession_stripped : String) (links : List String) :
    String :=
  let cands := (links.map pyStrip).filter specCandidate
  let nonIdx := cands.filter (fun f => strLower f != "index.html")
  match nonIdx.getLast? with
  | some f => base_url cik accession_stripped ++ f
  | none =>
    match cands.getLast? with
    | some f => base_url cik accession_stripped ++ f
    | none => index_url cik accession_stripped

/-! ### Filings query service: `get_filings` -/

/-- Python `str.zfill(width)` on the character list: if the string is already
at least `width` long it is returned unchanged; otherwise it is left-filled
with `'0'`, a leading sign character staying in front of the fill. -/
def zfillList (l : List Char) (width : Nat) : List Char :=
  if width ≤ l.length then l
  else
    match l with
    | [] => List.replicate width '0'
    | c :: rest =>
      if c = '+' || c = '-' then
        c :: (List.replicate (width - l.length) '0' ++ rest)
      else
        List.replicate (width - l.length) '0' ++ (c :: rest)

/-- Python `str.zfill(width)`. -/
def zfill (s : String) (width : Nat) : String :=
  String.mk (zfillList s.data width)

/-- Python `accession_original.replace("-", "")`: with a one-character
pattern and an empty replacement, every `'-'` is removed. -/
def replaceDashList : List Char → List Char
  | [] => []
  | c :: rest =>
    if c = '-' then replaceDashList rest else c :: replaceDashList rest

/-- `accession_original.replace("-", "")` on strings. -/
def stripAccession (s : String) : String := String.mk (replaceDashList s.data)

/-- The two accession forms derived in `get_filings` (lines 116-117): the
original `accessionNumber` entry, kept as `accession_original`, and the
stripped form `accession_stripped`. -/
def accessionForms (accession_original : String) : String × String :=
  (accession_original, stripAccession accession_original)

/-- The three parallel arrays extracted from
`data["filings"]["recent"]`: `form`, `accessionNumber`, `filingDate`
(each defaulting to `[]` when missing, via `.get(..., [])`). -/
structure Manifest where
  form : List String
  accessionNumber : List String
  filingDate : List String
deriving DecidableEq, Repr

/-- Outcome of the manifest fetch in `get_filings`: a decoded JSON body with
the extracted parallel arrays, a non-success status (`raise_for_status`
raised), a network-level `requests` exception, or an undecodable body
(`response.json()` raised `ValueError`). -/
inductive ManifestFetch where
  | ok (m : Manifest)
  | httpError
  | netError
  | jsonError
deriving DecidableEq, Repr

/-- The `for i, form in enumerate(forms)` loop of `get_filings`, recursing
over the remaining suffix of `forms` with `i` the index of its head.  For a
matching form, `accession_numbers[i]` is read first, then the resolver is
called, then `filing_dates[i]` is read; an out-of-range index raises an
uncaught `IndexError`, modelled as `none`.  `pageFetch` supplies the
resolver's listing-page fetch outcome for each `(cik, accession_stripped)`. -/
def get_filings_go (pageFetch : String → String → PageFetch)
    (cik10 filing_type : String) (m : Manifest) :
    Nat → List String → Option (List (String × String))
  | _, [] => some []
  | i, form :: rest =>
    if form = filing_type then
      match m.accessionNumber[i]? with
      | none => none
      | some accession_original =>
        let accession_stripped := stripAccession accession_original
        let filing_url :=
          get_native_filing_url cik10 accession_stripped
            (pageFetch cik10 accession_stripped)
        match m.filingDate[i]? with
        | none => none
        | some filing_date =>
          match get_filings_go pageFetch cik10 filing_type m (i + 1) rest with
          | none => none
          | some results => some ((filing_date, filing_url) :: results)
    else
      get_filings_go pageFetch cik10 filing_type m (i + 1) rest

/-- `get_filings(cik, filing_type)`: normalize the CIK with `zfill(10)`,
fetch the manifest (any fetch failure, non-success status or JSON decode
error degrades to `[]`), then iterate the parallel arrays emitting
`(filing_date, filing_url)` pairs.  `none` models an uncaught exception
(IndexError) escaping the function. -/
def get_filings (pageFetch : String → String → PageFetch)
    (cik filing_type : String) (mf : ManifestFetch) :
    Option (List (String × String)) :=
  let cik10 := zfill cik 10
  match mf with
  | .httpError => some []
  | .netError => some []
  | .jsonError => some []
  | .ok m => get_filings_go pageFetch cik10 filing_type m 0 m.form

/-- The resolver call made by `get_filings` for one matching row: derive the
stripped accession id and resolve it against the listing-page fetch outcome
supplied by `pageFetch`. -/
def resolveWith (pageFetch : String → String → PageFetch)
    (cik10 accession_original : String) : String :=
  let accession_stripped := stripAccession accession_original
  get_native_filing_url cik10 accession_stripped
    (pageFetch cik10 accession_stripped)

/-- Spec-side query result over three explicit parallel lists (written from
the spec's words): one record per row whose form matches the requested
type, pairing the row's filing date with the resolver URL for its accession
id, in row order. -/
def specRecordsList (resolve : String → String) (filing_type : String)
    (F A D : List String) : List (String × String) :=
  ((F.zip (A.zip D)).filter (fun p => p.1 == filing_type)).map
    (fun p => (p.2.2, resolve p.2.1))

/-- Spec-side query result for a manifest. -/
def specRecords (resolve : String → String) (filing_type : String)
    (m : Manifest) : List (String × String) :=
  specRecordsList resolve filing_type m.form m.accessionNumber m.filingDate

/-! ### Theorems -/

/-- Helper: the complete run of `sec_get` against an upstream that answers
429 on every attempt. -/
lemma sec_get_always429_eq (oracle : Nat → FetchOutcome)
    (h : ∀ n, oracle n = FetchOutcome.resp 429) :
    sec_get oracle =
      (SecGetObs.ret 429,
       [SecGetEvent.attempt 0, SecGetEvent.sleep 10, SecGetEvent.attempt 1,
        SecGetEvent.sleep 20, SecGetEvent.attempt 2, SecGetEvent.sleep 30]) := by
  have hr : List.range max_retries = [0, 1, 2] := rfl
  simp [sec_get, hr, secGetLoop, h 0, h 1, h 2, backoff_factor]

/-- Claim C2: when every upstream attempt returns HTTP 429, `sec_get` makes
3 attempts total, returns the last 429 response as a normal value (no
exception), with no backoff wait before the first attempt, a 10-second wait
after attempt 1 and a 20-second wait after attempt 2. -/
theorem sec_get_always429_three_attempts (oracle : Nat → FetchOutcome)
    (h : ∀ n, oracle n = FetchOutcome.resp 429) :
    (sec_get oracle).1 = SecGetObs.ret 429 ∧
    numAttempts (sec_get oracle).2 = 3 ∧
    (sec_get oracle).2.take 4 =
      [SecGetEvent.attempt 0, SecGetEvent.sleep 10,
       SecGetEvent.attempt 1, SecGetEvent.sleep 20] := by
  rw [sec_get_always429_eq oracle h]
  exact ⟨rfl, rfl, rfl⟩

/-- Witness for C2 at the constant-429 oracle. -/
theorem sec_get_always429_three_attempts_witness :
    (sec_get fun _ => FetchOutcome.resp 429).1 = SecGetObs.ret 429 ∧
    numAttempts (sec_get fun _ => FetchOutcome.resp 429).2 = 3 ∧
    (sec_get fun _ => FetchOutcome.resp 429).2.take 4 =
      [SecGetEvent.attempt 0, SecGetEvent.sleep 10,
       SecGetEvent.attempt 1, SecGetEvent.sleep 20] :=
  sec_get_always429_three_attempts (fun _ => FetchOutcome.resp 429)
    (fun _ => rfl)

/-- Claim C9: when every attempt returns 429, `sec_get` also sleeps after
the final (third) attempt — backoffs of 10, 20 and then 30 seconds, 60
seconds in total — before returning the final 429 response. -/
theorem sec_get_always429_sleeps_after_final (oracle : Nat → FetchOutcome)
    (h : ∀ n, oracle n = FetchOutcome.resp 429) :
    sec_get oracle =
      (SecGetObs.ret 429,
       [SecGetEvent.attempt 0, SecGetEvent.sleep 10, SecGetEvent.attempt 1,
        SecGetEvent.sleep 20, SecGetEvent.attempt 2, SecGetEvent.sleep 30]) ∧
    sleepTotal (sec_get oracle).2 = 60 ∧
    (sec_get oracle).2.getLast? = some (SecGetEvent.sleep 30) := by
  have e := sec_get_always429_eq oracle h
  refine ⟨e, ?_, ?_⟩ <;> rw [e] <;> rfl

/-- Witness for C9 at the constant-429 oracle. -/
theorem sec_get_always429_sleeps_after_final_witness :
    sec_get (fun _ => FetchOutcome.resp 429) =
      (SecGetObs.ret 429,
       [SecGetEvent.attempt 0, SecGetEvent.sleep 10, SecGetEvent.attempt 1,
        SecGetEvent.sleep 20, SecGetEvent.attempt 2, SecGetEvent.sleep 30]) ∧
    sleepTotal (sec_get fun _ => FetchOutcome.resp 429).2 = 60 ∧
    (sec_get fun _ => FetchOutcome.resp 429).2.getLast? =
      some (SecGetEvent.sleep 30) :=
  sec_get_always429_sleeps_after_final (fun _ => FetchOutcome.resp 429)
    (fun _ => rfl)

/-- Claim C7: a network-level exception on any attempt propagates
immediately out of `sec_get`, carrying its cause — the trace ends at that
attempt, with no retry after it. -/
theorem sec_get_netError_no_retry (oracle : Nat → FetchOutcome) (k c : Nat)
    (hk : k < max_retries) (hraise : oracle k = FetchOutcome.netError c)
    (h429 : ∀ j, j < k → oracle j = FetchOutcome.resp 429) :
    (sec_get oracle).1 = SecGetObs.raised c ∧
    numAttempts (sec_get oracle).2 = k + 1 ∧
    (sec_get oracle).2.getLast? = some (SecGetEvent.attempt k) := by
  have hr : List.range max_retries = [0, 1, 2] := rfl
  have hk3 : k < 3 := hk
  interval_cases k
  · simp [sec_get, hr, secGetLoop, hraise, numAttempts, isAttemptEv]
  · have h0 := h429 0 (by norm_num)
    simp [sec_get, hr, secGetLoop, h0, hraise, numAttempts, isAttemptEv,
      backoff_factor]
  · have h0 := h429 0 (by norm_num)
    have h1 := h429 1 (by norm_num)
    simp [sec_get, hr, secGetLoop, h0, h1, hraise, numAttempts, isAttemptEv,
      backoff_factor]

/-- Witness for C7: network failure on the second attempt after one 429. -/
theorem sec_get_netError_no_retry_witness :
    (sec_get fun n => if n = 0 then FetchOutcome.resp 429
        else FetchOutcome.netError 7).1 = SecGetObs.raised 7 ∧
    numAttempts (sec_get fun n => if n = 0 then FetchOutcome.resp 429
        else FetchOutcome.netError 7).2 = 1 + 1 ∧
    (sec_get fun n => if n = 0 then FetchOutcome.resp 429
        else FetchOutcome.netError 7).2.getLast? =
      some (SecGetEvent.attempt 1) :=
  sec_get_netError_no_retry
    (fun n => if n = 0 then FetchOutcome.resp 429 else FetchOutcome.netError 7)
    1 7 (by decide) rfl (by decide)

/-- Claim C4: when the listing-page fetch raises a network error or the
response has a non-success status, `get_native_filing_url` returns the
listing-page URL itself rather than propagating the failure. -/
theorem resolver_error_falls_back_to_listing_url
    (cik accession_stripped : String) :
    get_native_filing_url cik accession_stripped PageFetch.netError =
      index_url cik accession_stripped ∧
    get_native_filing_url cik accession_stripped PageFetch.httpError =
      index_url cik accession_stripped :=
  ⟨rfl, rfl⟩

/-- Claim C8: stripping `"0001234567-23-000111"` yields
`"000123456723000111"`, and the original separated form is retained
unchanged alongside the stripped form. -/
theorem accession_strip_roundtrip :
    accessionForms "0001234567-23-000111" =
      ("0001234567-23-000111", "000123456723000111") := by
  decide

/-- Helper: `zfill` leaves a list of length ≥ 10 unchanged. -/
lemma zfillList_long (l : List Char) (h : 10 ≤ l.length) :
    zfillList l 10 = l := by
  unfold zfillList
  rw [if_pos h]

/-- Helper: on a digit list shorter than 10, `zfill` prepends zeros. -/
lemma zfillList_digits (l : List Char) (hdig : ∀ c ∈ l, c.isDigit)
    (h : l.length < 10) :
    zfillList l 10 = List.replicate (10 - l.length) '0' ++ l := by
  unfold zfillList
  rw [if_neg (by omega)]
  cases l with
  | nil => simp
  | cons c rest =>
    have hc := hdig c (List.mem_cons_self c rest)
    have hcp : ¬ (c = '+') := by
      intro e; subst e; exact absurd hc (by decide)
    have hcm : ¬ (c = '-') := by
      intro e; subst e; exact absurd hc (by decide)
    simp [hcp, hcm]

/-- Claim C6: normalization `cik.zfill(10)` left-pads any digit string
shorter than 10 characters with zeros to exactly 10 digits, and returns any
string of length 10 or more unchanged (no truncation). -/
theorem zfill_pads_to_ten (s : String) :
    ((∀ c ∈ s.data, c.isDigit) → s.length < 10 →
      zfill s 10 = String.mk (List.replicate (10 - s.length) '0' ++ s.data) ∧
      (zfill s 10).length = 10) ∧
    (10 ≤ s.length → zfill s 10 = s) := by
  have hlen : s.length = s.data.length := rfl
  constructor
  · intro hdig hshort
    have h1 : zfill s 10 =
        String.mk (List.replicate (10 - s.length) '0' ++ s.data) := by
      unfold zfill
      rw [zfillList_digits s.data hdig (by omega), hlen]
    refine ⟨h1, ?_⟩
    rw [h1]
    show (List.replicate (10 - s.length) '0' ++ s.data).length = 10
    rw [List.length_append, List.length_replicate, ← hlen]
    omega
  · intro hge
    show String.mk (zfillList s.data 10) = s
    rw [zfillList_long s.data (by omega)]

/-- Witness for C6: padding `"123"` and the no-op on an 11-digit id. -/
theorem zfill_pads_to_ten_witness :
    (zfill "123" 10 =
        String.mk (List.replicate (10 - "123".length) '0' ++ "123".data) ∧
      (zfill "123" 10).length = 10) ∧
    zfill "01234567890" 10 = "01234567890" :=
  ⟨(zfill_pads_to_ten "123").1 (by decide) (by decide),
   (zfill_pads_to_ten "01234567890").2 (by decide)⟩

/-- Helper: one loop step keeps exactly the stripped hrefs satisfying
`specCandidate`. -/
lemma candidateStep_eq (candidate_files : List String) (link : String) :
    candidateStep candidate_files link =
      if specCandidate (pyStrip link) then candidate_files ++ [pyStrip link]
      else candidate_files := by
  unfold candidateStep specCandidate
  cases e1 : endsWithStr (strLower (pyStrip link)) ".htm" <;>
    cases e2 : endsWithStr (strLower (pyStrip link)) ".html" <;>
      cases e3 : containsSlash (pyStrip link) <;>
        cases e4 : endsWithStr (strLower (pyStrip link)) ".txt" <;>
          simp [e1, e2, e3, e4]

/-- Helper: the collection loop equals a filter of the stripped hrefs. -/
lemma collectCandidates_eq (links : List String) :
    collectCandidates links = (links.map pyStrip).filter specCandidate := by
  have key : ∀ (ls acc : List String),
      ls.foldl candidateStep acc =
        acc ++ (ls.map pyStrip).filter specCandidate := by
    intro ls
    induction ls with
    | nil => intro acc; simp
    | cons l rest ih =>
      intro acc
      rw [List.foldl_cons, ih, candidateStep_eq, List.map_cons,
        List.filter_cons]
      by_cases h : specCandidate (pyStrip l) = true
      · simp [h, List.append_assoc]
      · simp [h]
  simpa [collectCandidates] using key links []

/-- Claim C3: on a successfully fetched listing page,
`get_native_filing_url` keeps exactly the (stripped) hrefs that
case-insensitively end in `.htm` or `.html`, contain no `/` and do not end
in `.txt`; it returns the base listing URL plus the last candidate not
case-insensitively equal to `"index.html"`, else the base URL plus the last
index-named candidate, else the listing-page URL itself. -/
theorem resolver_selects_last_candidate (cik accession_stripped : String)
    (links : List String) :
    get_native_filing_url cik accession_stripped (PageFetch.ok links) =
      specResolve cik accession_stripped links := by
  simp only [get_native_filing_url, specResolve, collectCandidates_eq]

/-- Counterexample to claim C1: a manifest whose `form` array is longer than
the other two arrays makes `get_filings` read an out-of-range index at a
matching entry; the uncaught IndexError (modelled as `none`) escapes
instead of the entry being skipped and a sequence returned. -/
theorem get_filings_unequal_manifest_crashes :
    get_filings (fun _ _ => PageFetch.ok []) "123" "10-K"
      (ManifestFetch.ok ⟨["10-K"], [], []⟩) = none := by
  rfl

/-- Helper: the query loop returns normally when every remaining matching
index is within bounds of both other arrays. -/
lemma get_filings_go_isSome (pageFetch : String → String → PageFetch)
    (cik10 filing_type : String) (m : Manifest) :
    ∀ (l : List String) (i : Nat),
      (∀ j, l[j]? = some filing_type →
        i + j < m.accessionNumber.length ∧ i + j < m.filingDate.length) →
      (get_filings_go pageFetch cik10 filing_type m i l).isSome := by
  intro l
  induction l with
  | nil => intro i h; simp [get_filings_go]
  | cons form rest ih =>
    intro i h
    by_cases hf : form = filing_type
    · have h0 := h 0 (by simp [hf])
      have ha : i < m.accessionNumber.length := by omega
      have hd : i < m.filingDate.length := by omega
      have hrest : ∀ j, rest[j]? = some filing_type →
          i + 1 + j < m.accessionNumber.length ∧
          i + 1 + j < m.filingDate.length := by
        intro j hj
        have := h (j + 1) (by simpa using hj)
        omega
      have hrec := ih (i + 1) hrest
      obtain ⟨results, hres⟩ := Option.isSome_iff_exists.mp hrec
      simp [get_filings_go, hf, List.getElem?_eq_getElem ha,
        List.getElem?_eq_getElem hd, hres]
    · have hrest : ∀ j, rest[j]? = some filing_type →
          i + 1 + j < m.accessionNumber.length ∧
          i + 1 + j < m.filingDate.length := by
        intro j hj
        have := h (j + 1) (by simpa using hj)
        omega
      have hrec := ih (i + 1) hrest
      simpa [get_filings_go, hf] using hrec

/-- Claim C1 (amended): `get_filings` does not crash on a manifest —
unequal-length arrays included — provided every index whose form matches the
requested type is in range of both the accession and the date arrays; a
matching index out of range of either array raises an uncaught IndexError
instead of being skipped. -/
theorem get_filings_inrange_returns (pageFetch : String → String → PageFetch)
    (cik filing_type : String) (m : Manifest)
    (h : ∀ i, i < m.form.length → m.form[i]? = some filing_type →
      i < m.accessionNumber.length ∧ i < m.filingDate.length) :
    ∃ results,
      get_filings pageFetch cik filing_type (ManifestFetch.ok m) =
        some results := by
  have key : ∀ j, m.form[j]? = some filing_type →
      0 + j < m.accessionNumber.length ∧ 0 + j < m.filingDate.length := by
    intro j hj
    have hjlen : j < m.form.length := by
      obtain ⟨hlt, -⟩ := List.getElem?_eq_some.mp hj
      exact hlt
    simpa using h j hjlen hj
  have hsome := get_filings_go_isSome pageFetch (zfill cik 10) filing_type m
    m.form 0 key
  have heq : get_filings pageFetch cik filing_type (ManifestFetch.ok m) =
      get_filings_go pageFetch (zfill cik 10) filing_type m 0 m.form := rfl
  rw [heq]
  exact Option.isSome_iff_exists.mp hsome

/-- Witness for the amended C1: unequal arrays whose only matching index is
in range. -/
theorem get_filings_inrange_returns_witness :
    ∃ results,
      get_filings (fun _ _ => PageFetch.ok []) "123" "10-K"
        (ManifestFetch.ok
          ⟨["10-K", "8-K"], ["0001-23-000111"], ["2023-01-01"]⟩) =
        some results :=
  get_filings_inrange_returns (fun _ _ => PageFetch.ok []) "123" "10-K"
    ⟨["10-K", "8-K"], ["0001-23-000111"], ["2023-01-01"]⟩ (by decide)

/-- Helper: on a suffix of a manifest whose remaining rows are complete in
all three arrays, the query loop computes exactly the spec-side
filter-and-map of the remaining rows. -/
lemma get_filings_go_eq_spec (pageFetch : String → String → PageFetch)
    (cik10 filing_type : String) (m : Manifest) :
    ∀ (l A D : List String) (i : Nat),
      m.form.drop i = l →
      m.accessionNumber.drop i = A →
      m.filingDate.drop i = D →
      A.length = l.length → D.length = l.length →
      get_filings_go pageFetch cik10 filing_type m i l =
        some (specRecordsList (resolveWith pageFetch cik10) filing_type
          l A D) := by
  intro l
  induction l with
  | nil =>
    intro A D i hF hA hD hlA hlD
    have : A = [] := List.eq_nil_of_length_eq_zero hlA
    subst this
    have : D = [] := List.eq_nil_of_length_eq_zero hlD
    subst this
    simp [get_filings_go, specRecordsList]
  | cons form rest ih =>
    intro A D i hF hA hD hlA hlD
    cases A with
    | nil => simp at hlA
    | cons a A2 =>
      cases D with
      | nil => simp at hlD
      | cons d D2 =>
        have haI : m.accessionNumber[i]? = some a := by
          have := List.getElem?_drop m.accessionNumber i 0
          rw [hA] at this
          simpa using this.symm
        have hdI : m.filingDate[i]? = some d := by
          have := List.getElem?_drop m.filingDate i 0
          rw [hD] at this
          simpa using this.symm
        have hF2 : m.form.drop (i + 1) = rest := by
          rw [← List.tail_drop, hF]; rfl
        have hA2 : m.accessionNumber.drop (i + 1) = A2 := by
          rw [← List.tail_drop, hA]; rfl
        have hD2 : m.filingDate.drop (i + 1) = D2 := by
          rw [← List.tail_drop, hD]; rfl
        have hrec := ih A2 D2 (i + 1) hF2 hA2 hD2
          (by simpa using hlA) (by simpa using hlD)
        by_cases hf : form = filing_type
        · simp [get_filings_go, hf, haI, hdI, hrec, specRecordsList,
            List.filter_cons, resolveWith]
        · simp [get_filings_go, hf, hrec, specRecordsList, List.filter_cons]

/-- Claim C5: on a well-formed manifest (equal-length parallel arrays),
`get_filings` returns, in manifest order without re-sorting, one record per
index whose form equals the requested filing type by exact string match,
pairing that index's filing date with the resolver URL for its stripped
accession id. -/
theorem get_filings_wellformed_eq_spec
    (pageFetch : String → String → PageFetch)
    (cik filing_type : String) (m : Manifest)
    (hA : m.accessionNumber.length = m.form.length)
    (hD : m.filingDate.length = m.form.length) :
    get_filings pageFetch cik filing_type (ManifestFetch.ok m) =
      some (specRecords (resolveWith pageFetch (zfill cik 10)) filing_type
        m) := by
  have heq : get_filings pageFetch cik filing_type (ManifestFetch.ok m) =
      get_filings_go pageFetch (zfill cik 10) filing_type m 0 m.form := rfl
  rw [heq, get_filings_go_eq_spec pageFetch (zfill cik 10) filing_type m
    m.form m.accessionNumber m.filingDate 0 (by simp) (by simp) (by simp)
    hA hD]
  rfl

/-- Witness for C5: the spec's example manifest queried for `"10-K"` with a
stub resolver page yields exactly the two `10-K` records, dates in manifest
order. -/
theorem get_filings_wellformed_eq_spec_witness :
    get_filings (fun _ _ => PageFetch.ok []) "123" "10-K"
      (ManifestFetch.ok
        ⟨["10-K", "8-K", "10-K"],
         ["0001-23-000111", "0002-23-000222", "0003-23-000333"],
         ["2023-01-01", "2023-02-01", "2023-03-01"]⟩) =
      some
        [("2023-01-01",
          "https://www.sec.gov/Archives/edgar/data/0000000123/000123000111/index.html"),
         ("2023-03-01",
          "https://www.sec.gov/Archives/edgar/data/0000000123/000323000333/index.html")] := by
  rw [get_filings_wellformed_eq_spec (fun _ _ => PageFetch.ok []) "123"
    "10-K"
    ⟨["10-K", "8-K", "10-K"],
     ["0001-23-000111", "0002-23-000222", "0003-23-000333"],
     ["2023-01-01", "2023-02-01", "2023-03-01"]⟩ rfl rfl]
  decide

end SECFilings
